import Mathlib

/-!
Verification of the status-register engine (fault / warning / info bit banks).

Shallow embedding of the C sources:
  - include/status.h : STATUS_ENCODE, status_bank, status_bit, enum status_class
  - src/status.c : the bank arrays, last-set ids and the operations
    `_set`, `_clear`, `_toggle`, `_is_set`, status_init, status_any,
    status_clear_all, status_snapshot, status_last_fault/warning/info.

Machine integers are modelled as Nat with an explicit % 65536 wherever the C
code converts a value to uint16_t.  Bank arrays (uint16_t[NUM_STATUS_BANKS])
are modelled as functions Nat -> Nat together with the loops of the source,
which only ever touch indices below NUM_STATUS_BANKS.  ASSERT compiles to a
no-op outside debug builds, so the helper `_is_valid` has no runtime effect
and is not modelled.  `_get_bank_array` never returns NULL for the three
enumerators of enum status_class, so the NULL branches of the operations are
dead for the inductive class type used here.
-/

/-- NUM_STATUS_BANKS from include/status.h (8u). -/
def NUM_STATUS_BANKS : Nat := 8

/-- NUM_STATUS_BITS (16u). -/
def NUM_STATUS_BITS : Nat := 16

/-- UNSET_ID, the sentinel 0xFFFF used for the last-set ids. -/
def UNSET_ID : Nat := 0xFFFF

/-- STATUS_ENCODE(bank, bit) = (((uint16_t)(bank) << 4u) | ((uint16_t)(bit) & 0x0Fu)).
The casts to uint16_t are the % 65536 reductions; the arithmetic is then done
in int, wide enough that no further truncation occurs inside the macro. -/
def STATUS_ENCODE (bank bit : Nat) : Nat :=
  ((bank % 65536) <<< 4) ||| ((bit % 65536) &&& 0x0F)

/-- status_bank(id) = (uint16_t)(id >> 4u). -/
def status_bank (id : Nat) : Nat :=
  (id >>> 4) % 65536

/-- status_bit(id) = (uint16_t)(id & 0x0Fu).  The cast is the identity here
because the mask already keeps the value below 16. -/
def status_bit (id : Nat) : Nat :=
  id &&& 0x0F

/-- enum status_class with its three enumerators. -/
inductive StatusClass where
  | fault
  | warning
  | info
deriving DecidableEq, Repr

/-- The error kinds of status_err_t (header revision with the callback API). -/
inductive StatusErr where
  | invalid_id
  | invalid_bank
  | invalid_bit
  | null_ptr
deriving DecidableEq, Repr

/-- The mutable state of the module: the three bank arrays and the three
last-set ids.  Arrays are functions from the index; the operations below only
read and write indices < NUM_STATUS_BANKS, mirroring uint16_t[8]. -/
structure StatusState where
  fault_banks : Nat → Nat
  warning_banks : Nat → Nat
  info_banks : Nat → Nat
  last_fault_id : Nat
  last_warning_id : Nat
  last_info_id : Nat

/-- The switch in `_get_bank_array` (read view).  The default: NULL branch is
unreachable for the three enumerators. -/
def _get_bank_array (cls : StatusClass) (s : StatusState) : Nat → Nat :=
  match cls with
  | .fault => s.fault_banks
  | .warning => s.warning_banks
  | .info => s.info_banks

/-- Writing back through the pointer returned by `_get_bank_array`: replace
the selected bank array. -/
def _put_bank_array (cls : StatusClass) (b : Nat → Nat) (s : StatusState) : StatusState :=
  match cls with
  | .fault => { s with fault_banks := b }
  | .warning => { s with warning_banks := b }
  | .info => { s with info_banks := b }

/-- The per-class last-set id (read side of last_fault_id / last_warning_id /
last_info_id). -/
def _get_last_id (cls : StatusClass) (s : StatusState) : Nat :=
  match cls with
  | .fault => s.last_fault_id
  | .warning => s.last_warning_id
  | .info => s.last_info_id

/-- The switch in `_set` that records the last-set id for the class. -/
def _put_last_id (cls : StatusClass) (id : Nat) (s : StatusState) : StatusState :=
  match cls with
  | .fault => { s with last_fault_id := id }
  | .warning => { s with last_warning_id := id }
  | .info => { s with last_info_id := id }

/-- status_last_fault(). -/
def status_last_fault (s : StatusState) : Nat := s.last_fault_id

/-- status_last_warning(). -/
def status_last_warning (s : StatusState) : Nat := s.last_warning_id

/-- status_last_info(). -/
def status_last_info (s : StatusState) : Nat := s.last_info_id

/-- The mutator _set(id, cls): decode, bounds-check the bank, OR the bit mask into the
bank word (the store converts to uint16_t, hence % 65536) and record the
last-set id for the class. -/
def _set (id : Nat) (cls : StatusClass) (s : StatusState) : StatusState :=
  let bank := status_bank id
  let bit := status_bit id
  let b := _get_bank_array cls s
  if bank < NUM_STATUS_BANKS then
    _put_last_id cls id
      (_put_bank_array cls (Function.update b bank ((b bank ||| (1 <<< bit)) % 65536)) s)
  else
    s

/-- The mutator _clear(id, cls): AND the bank word with the 16-bit complement of the bit
mask.  In C the complement is ~(uint16_t)(1u << bit); on a word below 2^16
that is the same as XOR with 0xFFFF. -/
def _clear (id : Nat) (cls : StatusClass) (s : StatusState) : StatusState :=
  let bank := status_bank id
  let bit := status_bit id
  let b := _get_bank_array cls s
  if bank < NUM_STATUS_BANKS then
    _put_bank_array cls (Function.update b bank ((b bank &&& (0xFFFF ^^^ (1 <<< bit))) % 65536)) s
  else
    s

/-- The mutator _toggle(id, cls): XOR the bit mask into the bank word. -/
def _toggle (id : Nat) (cls : StatusClass) (s : StatusState) : StatusState :=
  let bank := status_bank id
  let bit := status_bit id
  let b := _get_bank_array cls s
  if bank < NUM_STATUS_BANKS then
    _put_bank_array cls (Function.update b bank ((b bank ^^^ (1 <<< bit)) % 65536)) s
  else
    s

/-- The predicate _is_set(id, cls): false when the bank is out of range, else test the bit
mask against the bank word. -/
def _is_set (id : Nat) (cls : StatusClass) (s : StatusState) : Bool :=
  let bank := status_bank id
  let bit := status_bit id
  if bank ≥ NUM_STATUS_BANKS then
    false
  else
    ((_get_bank_array cls s) bank &&& (1 <<< bit)) != 0

/-- memset of one uint16_t[NUM_STATUS_BANKS] array to zero: the words at
indices below NUM_STATUS_BANKS become 0. -/
def zeroBanks (b : Nat → Nat) : Nat → Nat :=
  fun i => if i < NUM_STATUS_BANKS then 0 else b i

/-- status_init(): zero all three bank arrays and reset the three last-set
ids to UNSET_ID. -/
def status_init (s : StatusState) : StatusState :=
  { fault_banks := zeroBanks s.fault_banks
    warning_banks := zeroBanks s.warning_banks
    info_banks := zeroBanks s.info_banks
    last_fault_id := UNSET_ID
    last_warning_id := UNSET_ID
    last_info_id := UNSET_ID }

/-- The scan loop of status_any: for (i = 0; i < NUM_STATUS_BANKS; ++i)
if (banks[i]) return true;  return false. -/
def anyFrom (b : Nat → Nat) (i : Nat) : Bool :=
  if _ : i < NUM_STATUS_BANKS then
    (b i != 0) || anyFrom b (i + 1)
  else
    false
termination_by NUM_STATUS_BANKS - i

/-- status_any(cls). -/
def status_any (cls : StatusClass) (s : StatusState) : Bool :=
  anyFrom (_get_bank_array cls s) 0

/-- The loop of status_clear_all: for (i = 0; i < NUM_STATUS_BANKS; ++i)
banks[i] = 0. -/
def clearAllFrom (b : Nat → Nat) (i : Nat) : Nat → Nat :=
  if _ : i < NUM_STATUS_BANKS then
    clearAllFrom (Function.update b i 0) (i + 1)
  else
    b
termination_by NUM_STATUS_BANKS - i

/-- status_clear_all(cls): run the zeroing loop over the bank array of the class;
the last-set ids are not touched. -/
def status_clear_all (cls : StatusClass) (s : StatusState) : StatusState :=
  _put_bank_array cls (clearAllFrom (_get_bank_array cls s) 0) s

/-- The copy loop of status_snapshot: for (i = 0; i < len && i < NUM_STATUS_BANKS;
++i) dst[i] = banks[i].  The destination buffer is a memory view Nat -> Nat;
the source is read only at the indices the guard admits. -/
def copyFrom (src : Nat → Nat) (dst : Nat → Nat) (len i : Nat) : Nat → Nat :=
  if _ : i < len ∧ i < NUM_STATUS_BANKS then
    copyFrom src (Function.update dst i (src i)) len (i + 1)
  else
    dst
termination_by NUM_STATUS_BANKS - i

/-- status_snapshot(cls, dst, len) (src/status.c revision): run the copy loop;
it returns the updated destination memory. -/
def status_snapshot (cls : StatusClass) (dst : Nat → Nat) (len : Nat) (s : StatusState) :
    Nat → Nat :=
  copyFrom (_get_bank_array cls s) dst len 0

/-- Modelled from the spec: the callback-enabled `_set` of the revision whose
header (status_set_err_callback, status_err_t) is in the tree but whose
implementation file is not.  Per spec 4.1 step 2 and section 7, the operation
validates bank < NUM_STATUS_BANKS and bit < NUM_STATUS_BITS; on failure it
invokes the registered error callback synchronously with InvalidBank or
InvalidBit and the offending id, then returns without modifying state.  The
synchronous callback invocations are returned as the event list. -/
def set_cb (id : Nat) (cls : StatusClass) (s : StatusState) :
    StatusState × List (StatusErr × Nat) :=
  if status_bank id ≥ NUM_STATUS_BANKS then
    (s, [(.invalid_bank, id)])
  else if status_bit id ≥ NUM_STATUS_BITS then
    (s, [(.invalid_bit, id)])
  else
    (_set id cls s, [])

/-- Modelled from the spec: the callback-enabled `_clear` (see set_cb). -/
def clear_cb (id : Nat) (cls : StatusClass) (s : StatusState) :
    StatusState × List (StatusErr × Nat) :=
  if status_bank id ≥ NUM_STATUS_BANKS then
    (s, [(.invalid_bank, id)])
  else if status_bit id ≥ NUM_STATUS_BITS then
    (s, [(.invalid_bit, id)])
  else
    (_clear id cls s, [])

/-- Modelled from the spec: the callback-enabled `_toggle` (see set_cb). -/
def toggle_cb (id : Nat) (cls : StatusClass) (s : StatusState) :
    StatusState × List (StatusErr × Nat) :=
  if status_bank id ≥ NUM_STATUS_BANKS then
    (s, [(.invalid_bank, id)])
  else if status_bit id ≥ NUM_STATUS_BITS then
    (s, [(.invalid_bit, id)])
  else
    (_toggle id cls s, [])

/-- Modelled from the spec: the callback-enabled `_is_set`: validates like the
mutators, invoking the callback and returning false on invalid input. -/
def is_set_cb (id : Nat) (cls : StatusClass) (s : StatusState) :
    Bool × List (StatusErr × Nat) :=
  if status_bank id ≥ NUM_STATUS_BANKS then
    (false, [(.invalid_bank, id)])
  else if status_bit id ≥ NUM_STATUS_BITS then
    (false, [(.invalid_bit, id)])
  else
    (_is_set id cls s, [])

/-- Modelled from the spec: the callback-enabled status_snapshot of the same
missing revision.  A null destination is Option.none.  If dst is null or len
is zero the error callback is invoked with the null-pointer kind and the
sentinel id (no encoded id is applicable) and no copy is performed; otherwise
the copy loop of status_snapshot runs. -/
def snapshot_cb (cls : StatusClass) (dst : Option (Nat → Nat)) (len : Nat) (s : StatusState) :
    Option (Nat → Nat) × List (StatusErr × Nat) :=
  match dst with
  | none => (none, [(.null_ptr, UNSET_ID)])
  | some d =>
    if len = 0 then
      (some d, [(.null_ptr, UNSET_ID)])
    else
      (some (status_snapshot cls d len s), [])

/-- A concrete all-zero state used by the witnesses. -/
def state0 : StatusState :=
  { fault_banks := fun _ => 0
    warning_banks := fun _ => 0
    info_banks := fun _ => 0
    last_fault_id := UNSET_ID
    last_warning_id := UNSET_ID
    last_info_id := UNSET_ID }

/-- Well-formedness: every word of every bank array (at the indices that
exist in the C arrays) fits in uint16_t.  Every state of the C program
satisfies this by the types of the arrays. -/
def BanksWF (s : StatusState) : Prop :=
  ∀ cls : StatusClass, ∀ i, i < NUM_STATUS_BANKS → _get_bank_array cls s i < 65536

/-! ## Helper lemmas -/

theorem numBanks_eq : NUM_STATUS_BANKS = 8 := rfl

theorem numBits_eq : NUM_STATUS_BITS = 16 := rfl

theorem unsetId_eq : UNSET_ID = 65535 := rfl

theorem status_bit_lt_16 (id : Nat) : status_bit id < 16 :=
  lt_of_le_of_lt Nat.and_le_right (by norm_num)

theorem one_shiftLeft_eq (bit : Nat) : 1 <<< bit = 2 ^ bit := by
  rw [Nat.shiftLeft_eq, one_mul]

theorem two_pow_lt_of_lt_16 (bit : Nat) (h : bit < 16) : 2 ^ bit < 65536 := by
  calc 2 ^ bit ≤ 2 ^ 15 := Nat.pow_le_pow_right (by norm_num) (by omega)
  _ < 65536 := by norm_num

theorem or_two_pow_and_ne_zero (b bit : Nat) : ((b ||| 2 ^ bit) &&& 2 ^ bit) ≠ 0 := by
  rw [Nat.and_two_pow, Nat.testBit_or, Nat.testBit_two_pow_self]
  simp

theorem and_clear_mask_two_pow (b bit : Nat) (h : bit < 16) :
    (b &&& (65535 ^^^ 2 ^ bit)) &&& 2 ^ bit = 0 := by
  rw [Nat.and_assoc]
  have h2 : (65535 ^^^ 2 ^ bit) &&& 2 ^ bit = 0 := by
    rw [Nat.and_two_pow, Nat.testBit_xor,
      show (65535 : ℕ) = 2 ^ 16 - 1 by norm_num, Nat.testBit_two_pow_sub_one,
      Nat.testBit_two_pow_self]
    simp [h]
  rw [h2, Nat.and_zero]

theorem get_put_bank_same (cls : StatusClass) (b : Nat → Nat) (s : StatusState) :
    _get_bank_array cls (_put_bank_array cls b s) = b := by
  cases cls <;> rfl

theorem get_put_bank_ne (cls cls' : StatusClass) (b : Nat → Nat) (s : StatusState)
    (h : cls' ≠ cls) :
    _get_bank_array cls' (_put_bank_array cls b s) = _get_bank_array cls' s := by
  cases cls <;> cases cls' <;> first | rfl | exact absurd rfl h

theorem get_put_last (cls cls' : StatusClass) (id : Nat) (s : StatusState) :
    _get_bank_array cls (_put_last_id cls' id s) = _get_bank_array cls s := by
  cases cls <;> cases cls' <;> rfl

theorem last_put_bank (cls cls' : StatusClass) (b : Nat → Nat) (s : StatusState) :
    _get_last_id cls (_put_bank_array cls' b s) = _get_last_id cls s := by
  cases cls <;> cases cls' <;> rfl

theorem last_put_last_same (cls : StatusClass) (id : Nat) (s : StatusState) :
    _get_last_id cls (_put_last_id cls id s) = id := by
  cases cls <;> rfl

/-! ## Claims -/

/-- C1: for every (bank, bit) pair with bank < NUM_STATUS_BANKS and bit < 16,
the encoded id equals (bank shifted left by 4) OR-ed with (bit masked to its
low 4 bits), and decoding is the exact inverse: status_bank recovers bank and
status_bit recovers bit. -/
theorem encode_decode_roundtrip :
    ∀ bank, bank < NUM_STATUS_BANKS → ∀ bit, bit < 16 →
      STATUS_ENCODE bank bit = ((bank <<< 4) ||| (bit &&& 0x0F)) ∧
      status_bank (STATUS_ENCODE bank bit) = bank ∧
      status_bit (STATUS_ENCODE bank bit) = bit := by
  decide

/-- Witness for C1 at bank 2, bit 5. -/
theorem encode_decode_roundtrip_witness :
    STATUS_ENCODE 2 5 = ((2 <<< 4) ||| (5 &&& 0x0F)) ∧
    status_bank (STATUS_ENCODE 2 5) = 2 ∧
    status_bit (STATUS_ENCODE 2 5) = 5 :=
  encode_decode_roundtrip 2 (by decide) 5 (by decide)

/-- C6: for an id whose decoded bank is out of range, _set, _clear and
_toggle return the state unchanged (no bank word, no last-set id modified)
and _is_set returns false; none of them modifies any state. -/
theorem out_of_range_noop (id : Nat) (cls : StatusClass) (s : StatusState)
    (h : NUM_STATUS_BANKS ≤ status_bank id) :
    _set id cls s = s ∧ _clear id cls s = s ∧ _toggle id cls s = s ∧
    _is_set id cls s = false := by
  refine ⟨?_, ?_, ?_, ?_⟩
  · simp only [_set]
    rw [if_neg (Nat.not_lt.mpr h)]
  · simp only [_clear]
    rw [if_neg (Nat.not_lt.mpr h)]
  · simp only [_toggle]
    rw [if_neg (Nat.not_lt.mpr h)]
  · simp only [_is_set]
    rw [if_pos h]

/-- Witness for C6 at id 128 (decoded bank 8, out of range) on the all-zero
state. -/
theorem out_of_range_noop_witness :
    _set 128 .fault state0 = state0 ∧ _clear 128 .fault state0 = state0 ∧
    _toggle 128 .fault state0 = state0 ∧ _is_set 128 .fault state0 = false :=
  out_of_range_noop 128 .fault state0 (by decide)

/-- C2: for a valid id (decoded bank in range) and any class, from any
well-formed state: set then is_set is true, clear then is_set is false, and
toggling twice restores every bank word of every class. -/
theorem set_clear_toggle_roundtrip (id : Nat) (cls : StatusClass) (s : StatusState)
    (hbank : status_bank id < NUM_STATUS_BANKS) (hwf : BanksWF s) :
    _is_set id cls (_set id cls s) = true ∧
    _is_set id cls (_clear id cls s) = false ∧
    ∀ cls2 i, _get_bank_array cls2 (_toggle id cls (_toggle id cls s)) i =
      _get_bank_array cls2 s i := by
  have hbit : status_bit id < 16 := status_bit_lt_16 id
  have hb : _get_bank_array cls s (status_bank id) < 65536 := hwf cls _ hbank
  have hble : ¬ (status_bank id ≥ NUM_STATUS_BANKS) := Nat.not_le.mpr hbank
  have h216 : (65536 : ℕ) = 2 ^ 16 := by norm_num
  have hm : (2 : ℕ) ^ status_bit id < 65536 := two_pow_lt_of_lt_16 _ hbit
  refine ⟨?_, ?_, ?_⟩
  · simp only [_set, _is_set, one_shiftLeft_eq]
    rw [if_pos hbank, if_neg hble, get_put_last, get_put_bank_same,
      Function.update_same]
    have hor : _get_bank_array cls s (status_bank id) ||| 2 ^ status_bit id < 65536 := by
      rw [h216] at hb hm ⊢
      exact Nat.or_lt_two_pow hb hm
    rw [Nat.mod_eq_of_lt hor]
    simp only [bne_iff_ne, ne_eq]
    exact or_two_pow_and_ne_zero _ _
  · simp only [_clear, _is_set, one_shiftLeft_eq]
    rw [if_pos hbank, if_neg hble, get_put_bank_same, Function.update_same]
    have hand : _get_bank_array cls s (status_bank id) &&& (0xFFFF ^^^ 2 ^ status_bit id)
        < 65536 := lt_of_le_of_lt Nat.and_le_left hb
    rw [Nat.mod_eq_of_lt hand, and_clear_mask_two_pow _ _ hbit]
    simp
  · intro cls2 i
    have hx : _get_bank_array cls s (status_bank id) ^^^ 2 ^ status_bit id < 65536 := by
      rw [h216] at hb hm ⊢
      exact Nat.xor_lt_two_pow hb hm
    have e1 : _toggle id cls s =
        _put_bank_array cls
          (Function.update (_get_bank_array cls s) (status_bank id)
            ((_get_bank_array cls s (status_bank id) ^^^ 2 ^ status_bit id) % 65536)) s := by
      simp only [_toggle, one_shiftLeft_eq]
      rw [if_pos hbank]
    rw [e1]
    simp only [_toggle, one_shiftLeft_eq]
    rw [if_pos hbank, get_put_bank_same, Function.update_same,
      Nat.mod_eq_of_lt hx, Nat.xor_cancel_right, Nat.mod_eq_of_lt hb]
    by_cases hc : cls2 = cls
    · subst hc
      rw [get_put_bank_same]
      by_cases hi : i = status_bank id
      · subst hi
        rw [Function.update_same]
      · rw [Function.update_noteq hi, Function.update_noteq hi]
    · rw [get_put_bank_ne _ _ _ _ hc, get_put_bank_ne _ _ _ _ hc]

/-- Witness for C2 at id 21 (bank 1, bit 5), class warning, from the all-zero
state. -/
theorem set_clear_toggle_roundtrip_witness :
    _is_set 21 .warning (_set 21 .warning state0) = true ∧
    _is_set 21 .warning (_clear 21 .warning state0) = false ∧
    ∀ cls2 i, _get_bank_array cls2 (_toggle 21 .warning (_toggle 21 .warning state0)) i =
      _get_bank_array cls2 state0 i :=
  set_clear_toggle_roundtrip 21 .warning state0 (by decide)
    (by intro c i _; cases c <;> simp [state0, _get_bank_array])

/-- C3: the last-set id of a class is the sentinel after init, is the id just
passed to a valid _set, and is left unchanged by _clear, _toggle and
status_clear_all (it persists even when the corresponding bit clears). -/
theorem last_set_persists (s : StatusState) (cls cls' : StatusClass) (id id2 : Nat)
    (hbank : status_bank id < NUM_STATUS_BANKS) :
    _get_last_id cls (status_init s) = UNSET_ID ∧
    _get_last_id cls (_set id cls s) = id ∧
    _get_last_id cls' (_clear id2 cls s) = _get_last_id cls' s ∧
    _get_last_id cls' (_toggle id2 cls s) = _get_last_id cls' s ∧
    _get_last_id cls' (status_clear_all cls s) = _get_last_id cls' s := by
  refine ⟨?_, ?_, ?_, ?_, ?_⟩
  · cases cls <;> rfl
  · simp only [_set]
    rw [if_pos hbank, last_put_last_same]
  · simp only [_clear]
    split
    · rw [last_put_bank]
    · rfl
  · simp only [_toggle]
    split
    · rw [last_put_bank]
    · rfl
  · simp only [status_clear_all]
    rw [last_put_bank]

/-- Witness for C3 with the fault class, id 5, clear and toggle at id 7. -/
theorem last_set_persists_witness :
    _get_last_id .fault (status_init state0) = UNSET_ID ∧
    _get_last_id .fault (_set 5 .fault state0) = 5 ∧
    _get_last_id .warning (_clear 7 .fault state0) = _get_last_id .warning state0 ∧
    _get_last_id .warning (_toggle 7 .fault state0) = _get_last_id .warning state0 ∧
    _get_last_id .warning (status_clear_all .fault state0) = _get_last_id .warning state0 :=
  last_set_persists state0 .fault .warning 5 7 (by decide)

/-- Characterization of the status_any scan loop by fuel induction. -/
theorem anyFrom_true_iff (b : Nat → Nat) :
    ∀ n i, NUM_STATUS_BANKS - i ≤ n →
      (anyFrom b i = true ↔ ∃ j, i ≤ j ∧ j < NUM_STATUS_BANKS ∧ b j ≠ 0) := by
  intro n
  induction n with
  | zero =>
    intro i hn
    have hi : ¬ i < NUM_STATUS_BANKS := by
      rw [numBanks_eq] at hn ⊢
      omega
    rw [anyFrom, dif_neg hi]
    constructor
    · intro h
      simp at h
    · rintro ⟨j, hj1, hj2, -⟩
      exact absurd (lt_of_le_of_lt hj1 hj2) hi
  | succ n ih =>
    intro i hn
    by_cases hi : i < NUM_STATUS_BANKS
    · rw [anyFrom, dif_pos hi]
      have ih2 := ih (i + 1) (by rw [numBanks_eq] at hn hi ⊢; omega)
      simp only [Bool.or_eq_true, bne_iff_ne, ne_eq, ih2]
      constructor
      · rintro (h | ⟨j, h1, h2, h3⟩)
        · exact ⟨i, le_refl i, hi, h⟩
        · exact ⟨j, by omega, h2, h3⟩
      · rintro ⟨j, h1, h2, h3⟩
        rcases Nat.eq_or_lt_of_le h1 with rfl | h4
        · exact Or.inl h3
        · exact Or.inr ⟨j, h4, h2, h3⟩
    · rw [anyFrom, dif_neg hi]
      constructor
      · intro h
        simp at h
      · rintro ⟨j, hj1, hj2, -⟩
        exact absurd (lt_of_le_of_lt hj1 hj2) hi

/-- C8: status_any is false immediately after init, and in any state it is
true exactly when some bank word of the class is nonzero. -/
theorem any_iff_some_nonzero (s : StatusState) (cls : StatusClass) :
    status_any cls (status_init s) = false ∧
    (status_any cls s = true ↔
      ∃ i, i < NUM_STATUS_BANKS ∧ _get_bank_array cls s i ≠ 0) := by
  constructor
  · rw [Bool.eq_false_iff]
    intro h
    rw [status_any, anyFrom_true_iff _ NUM_STATUS_BANKS 0 (by omega)] at h
    obtain ⟨j, -, hj2, hj3⟩ := h
    apply hj3
    cases cls <;> simp [status_init, _get_bank_array, zeroBanks, hj2]
  · rw [status_any, anyFrom_true_iff _ NUM_STATUS_BANKS 0 (by omega)]
    constructor
    · rintro ⟨j, -, h2, h3⟩
      exact ⟨j, h2, h3⟩
    · rintro ⟨j, h2, h3⟩
      exact ⟨j, Nat.zero_le j, h2, h3⟩

/-- Characterization of the status_clear_all zeroing loop by fuel induction. -/
theorem clearAllFrom_apply :
    ∀ n i (b : Nat → Nat) (j : Nat), NUM_STATUS_BANKS - i ≤ n →
      clearAllFrom b i j = if i ≤ j ∧ j < NUM_STATUS_BANKS then 0 else b j := by
  intro n
  induction n with
  | zero =>
    intro i b j hn
    have hi : ¬ i < NUM_STATUS_BANKS := by
      rw [numBanks_eq] at hn ⊢
      omega
    rw [clearAllFrom, dif_neg hi, if_neg]
    rintro ⟨h1, h2⟩
    exact hi (lt_of_le_of_lt h1 h2)
  | succ n ih =>
    intro i b j hn
    by_cases hi : i < NUM_STATUS_BANKS
    · rw [clearAllFrom, dif_pos hi, ih (i + 1) _ j (by rw [numBanks_eq] at hn hi ⊢; omega)]
      by_cases hj : j = i
      · subst hj
        rw [if_neg (by omega), Function.update_same, if_pos ⟨le_refl j, hi⟩]
      · rw [Function.update_noteq hj]
        by_cases hcond : i ≤ j ∧ j < NUM_STATUS_BANKS
        · rw [if_pos (show i + 1 ≤ j ∧ j < NUM_STATUS_BANKS from ⟨by omega, hcond.2⟩),
            if_pos hcond]
        · rw [if_neg (fun hc => hcond ⟨by omega, hc.2⟩), if_neg hcond]
    · rw [clearAllFrom, dif_neg hi, if_neg]
      rintro ⟨h1, h2⟩
      exact hi (lt_of_le_of_lt h1 h2)

/-- C9: status_clear_all zeroes every bank word of the class and leaves the
bank words of the other classes and all three last-set ids unchanged. -/
theorem clear_all_scoped (s : StatusState) (cls cls' : StatusClass) (j k : Nat)
    (hj : j < NUM_STATUS_BANKS) (hne : cls' ≠ cls) :
    _get_bank_array cls (status_clear_all cls s) j = 0 ∧
    _get_bank_array cls' (status_clear_all cls s) k = _get_bank_array cls' s k ∧
    (∀ c, _get_last_id c (status_clear_all cls s) = _get_last_id c s) := by
  refine ⟨?_, ?_, ?_⟩
  · simp only [status_clear_all]
    rw [get_put_bank_same, clearAllFrom_apply NUM_STATUS_BANKS 0 _ j (by omega),
      if_pos ⟨Nat.zero_le j, hj⟩]
  · simp only [status_clear_all]
    rw [get_put_bank_ne _ _ _ _ hne]
  · intro c
    simp only [status_clear_all]
    rw [last_put_bank]

/-- Witness for C9: clear the fault class at index 3, check the warning class
at index 2 and the last-set ids. -/
theorem clear_all_scoped_witness :
    _get_bank_array .fault (status_clear_all .fault state0) 3 = 0 ∧
    _get_bank_array .warning (status_clear_all .fault state0) 2 =
      _get_bank_array .warning state0 2 ∧
    (∀ c, _get_last_id c (status_clear_all .fault state0) = _get_last_id c state0) :=
  clear_all_scoped state0 .fault .warning 3 2 (by decide) (by decide)

/-- Characterization of the status_snapshot copy loop by fuel induction. -/
theorem copyFrom_apply (src : Nat → Nat) :
    ∀ n i (dst : Nat → Nat) (len j : Nat), NUM_STATUS_BANKS - i ≤ n →
      copyFrom src dst len i j =
        if i ≤ j ∧ j < len ∧ j < NUM_STATUS_BANKS then src j else dst j := by
  intro n
  induction n with
  | zero =>
    intro i dst len j hn
    have hi : ¬ i < NUM_STATUS_BANKS := by
      rw [numBanks_eq] at hn ⊢
      omega
    rw [copyFrom, dif_neg (fun hc => hi hc.2), if_neg]
    rintro ⟨h1, -, h3⟩
    exact hi (lt_of_le_of_lt h1 h3)
  | succ n ih =>
    intro i dst len j hn
    by_cases hi : i < len ∧ i < NUM_STATUS_BANKS
    · rw [copyFrom, dif_pos hi, ih (i + 1) _ len j (by rw [numBanks_eq] at hn ⊢; omega)]
      by_cases hj : j = i
      · subst hj
        rw [if_neg (by omega), Function.update_same, if_pos ⟨le_refl j, hi.1, hi.2⟩]
      · rw [Function.update_noteq hj]
        by_cases hcond : i ≤ j ∧ j < len ∧ j < NUM_STATUS_BANKS
        · rw [if_pos (show i + 1 ≤ j ∧ j < len ∧ j < NUM_STATUS_BANKS from
            ⟨by omega, hcond.2⟩), if_pos hcond]
        · rw [if_neg (fun hc => hcond ⟨by omega, hc.2⟩), if_neg hcond]
    · rw [copyFrom, dif_neg hi, if_neg
        (fun hc => hi ⟨lt_of_le_of_lt hc.1 hc.2.1, lt_of_le_of_lt hc.1 hc.2.2⟩)]

/-- C7: for a non-null destination and positive length, status_snapshot
copies exactly min(len, NUM_STATUS_BANKS) bank words to the front of the
destination, writes no destination entry at index at or past len, and the
copy loop reads no source entry at index at or past NUM_STATUS_BANKS: its
result only depends on the source below NUM_STATUS_BANKS. -/
theorem snapshot_copy_bounds (s : StatusState) (cls : StatusClass) (dst : Nat → Nat)
    (len : Nat) (hlen : 0 < len) :
    (∀ j, j < min len NUM_STATUS_BANKS →
      status_snapshot cls dst len s j = _get_bank_array cls s j) ∧
    (∀ j, len ≤ j → status_snapshot cls dst len s j = dst j) ∧
    (∀ (src1 src2 d : Nat → Nat) (l : Nat),
      (∀ i, i < NUM_STATUS_BANKS → src1 i = src2 i) →
      ∀ j, copyFrom src1 d l 0 j = copyFrom src2 d l 0 j) := by
  refine ⟨?_, ?_, ?_⟩
  · intro j hjm
    rw [Nat.lt_min] at hjm
    simp only [status_snapshot]
    rw [copyFrom_apply _ NUM_STATUS_BANKS 0 dst len j (by omega),
      if_pos ⟨Nat.zero_le j, hjm.1, hjm.2⟩]
  · intro j hjl
    simp only [status_snapshot]
    rw [copyFrom_apply _ NUM_STATUS_BANKS 0 dst len j (by omega), if_neg]
    rintro ⟨-, h2, -⟩
    omega
  · intro src1 src2 d l hagree j
    rw [copyFrom_apply src1 NUM_STATUS_BANKS 0 d l j (by omega),
      copyFrom_apply src2 NUM_STATUS_BANKS 0 d l j (by omega)]
    by_cases hc : 0 ≤ j ∧ j < l ∧ j < NUM_STATUS_BANKS
    · rw [if_pos hc, if_pos hc]
      exact hagree j hc.2.2
    · rw [if_neg hc, if_neg hc]

/-- Witness for C7 with length 3 into a destination filled with 7. -/
theorem snapshot_copy_bounds_witness :
    status_snapshot .fault (fun _ => 7) 3 state0 1 = _get_bank_array .fault state0 1 ∧
    status_snapshot .fault (fun _ => 7) 3 state0 5 = 7 :=
  ⟨(snapshot_copy_bounds state0 .fault (fun _ => 7) 3 (by decide)).1 1 (by decide),
   (snapshot_copy_bounds state0 .fault (fun _ => 7) 3 (by decide)).2.1 5 (by decide)⟩

/-- C4: when an operation receives an id whose decoded bank is out of range,
the callback-enabled operations report invalid_bank with the offending id and
leave the state unchanged (and the predicate returns false). -/
theorem invalid_bank_reports (id : Nat) (cls : StatusClass) (s : StatusState)
    (h : NUM_STATUS_BANKS ≤ status_bank id) :
    set_cb id cls s = (s, [(.invalid_bank, id)]) ∧
    clear_cb id cls s = (s, [(.invalid_bank, id)]) ∧
    toggle_cb id cls s = (s, [(.invalid_bank, id)]) ∧
    is_set_cb id cls s = (false, [(.invalid_bank, id)]) := by
  refine ⟨?_, ?_, ?_, ?_⟩
  · simp only [set_cb]
    rw [if_pos h]
  · simp only [clear_cb]
    rw [if_pos h]
  · simp only [toggle_cb]
    rw [if_pos h]
  · simp only [is_set_cb]
    rw [if_pos h]

/-- Witness for C4 at id 128 (decoded bank 8 = NUM_STATUS_BANKS). -/
theorem invalid_bank_reports_witness :
    set_cb 128 .fault state0 = (state0, [(.invalid_bank, 128)]) ∧
    clear_cb 128 .fault state0 = (state0, [(.invalid_bank, 128)]) ∧
    toggle_cb 128 .fault state0 = (state0, [(.invalid_bank, 128)]) ∧
    is_set_cb 128 .fault state0 = (false, [(.invalid_bank, 128)]) :=
  invalid_bank_reports 128 .fault state0 (by decide)

/-- C5: snapshot with a null destination or a zero length performs no copy
(the destination is returned untouched) and reports the null-pointer error
kind through the callback. -/
theorem snapshot_null_reports (cls : StatusClass) (len : Nat) (s : StatusState)
    (d : Nat → Nat) :
    snapshot_cb cls none len s = (none, [(.null_ptr, UNSET_ID)]) ∧
    snapshot_cb cls (some d) 0 s = (some d, [(.null_ptr, UNSET_ID)]) := by
  constructor
  · rfl
  · simp [snapshot_cb]

/-- C10: for every uint16_t id the decoded bit index is below
NUM_STATUS_BITS, so the invalid-bit rejection is unreachable, and the shift
of 1 by the decoded bit stays inside the 16-bit word. -/
theorem decoded_bit_in_range (id : Nat) (h : id < 65536) :
    status_bit id < NUM_STATUS_BITS ∧ ¬ NUM_STATUS_BITS ≤ status_bit id ∧
    1 <<< status_bit id < 65536 := by
  have h1 : status_bit id < 16 := status_bit_lt_16 id
  refine ⟨by rw [numBits_eq]; exact h1, by rw [numBits_eq]; omega, ?_⟩
  rw [one_shiftLeft_eq]
  exact two_pow_lt_of_lt_16 _ h1

/-- Witness for C10 at the largest uint16_t id. -/
theorem decoded_bit_in_range_witness :
    status_bit 65535 < NUM_STATUS_BITS ∧ ¬ NUM_STATUS_BITS ≤ status_bit 65535 ∧
    1 <<< status_bit 65535 < 65536 :=
  decoded_bit_in_range 65535 (by decide)
